import Mathlib

/-!
# constants.c: the catalog generator of mipsem

`constants.c` is a single `main` that prints one text record per ABI fact of
the host: the value of a header constant, the size of a struct, the offset and
size of a struct field.  The records are produced by five printf wrappers
(`S`, `C`, `C2`, `F`, `AF`) that stringify their arguments into the format.

The embedding keeps that shape.  Everything the host's headers and compiler
decide is a parameter (`Host`); the five wrappers are functions from the host
to the text they print; the body of `main` is the list of wrapper calls in
source order.
-/

namespace Constants

/-! ## C integers and printf -/

/-- The conversion `(int) x` to a 32-bit two's complement `int`: the value is
reduced modulo `2^32` into `[-2^31, 2^31)`. -/
@[irreducible] def castInt (v : Int) : Int :=
  (v + 2147483648) % 4294967296 - 2147483648

/-- The part of `printf` the program uses.  `%d` takes the next argument, reads
it as an `int` and prints it in signed decimal; every other character of the
format is copied.  A `%d` without an argument prints nothing. -/
def printfAux : List Char → List Int → List Char
  | [], _ => []
  | [c], _ => [c]
  | c :: d :: rest, args =>
    if c = '%' ∧ d = 'd' then
      match args with
      | a :: as => (toString (castInt a)).data ++ printfAux rest as
      | [] => printfAux rest []
    else c :: printfAux (d :: rest) args

/-- The text `printf(format, args...)` writes. -/
def printf (format : String) (args : List Int) : String :=
  ⟨printfAux format.data args⟩

/-! ## The host -/

/-- What the host's headers and compiler define.  `const A` is the value of the
header symbol `A` in its own C type, `sizeof A` is `sizeof A` for the local
variable `A` of type `struct A` (or `fd_set`), `offsetof A B` is
`offsetof(struct A, B)`, `sizeofField A B` is `sizeof A.B`, and
`sizeofElem A B` is `sizeof A.B[0]`. -/
structure Host where
  const : String → Int
  sizeof : String → Nat
  offsetof : String → String → Nat
  sizeofField : String → String → Nat
  sizeofElem : String → String → Nat

/-! ## The five printf wrappers (constants.c lines 31-41) -/

/-- Line 32: `printf("sizeof_" #A "=%d\n", sizeof A)`. -/
def S (h : Host) (A : String) : String :=
  printf ("sizeof_" ++ A ++ "=%d\n") [(h.sizeof A : Int)]

/-- Line 34: `printf(#A "=%d\n", (int) A)`. -/
def C (h : Host) (A : String) : String :=
  printf (A ++ "=%d\n") [castInt (h.const A)]

/-- Line 35: `printf(#A "=%d,%d\n", (int) A, (int) B)`.  The second argument
is always one of the literals `ST` ... `SC`, so it is passed by value. -/
def C2 (h : Host) (A : String) (B : Int) : String :=
  printf (A ++ "=%d,%d\n") [castInt (h.const A), castInt B]

/-- Lines 37-38: `printf(#A "." #B "=%d,%d\n", offsetof(struct A, B), sizeof A.B)`. -/
def F (h : Host) (A B : String) : String :=
  printf (A ++ "." ++ B ++ "=%d,%d\n") [(h.offsetof A B : Int), (h.sizeofField A B : Int)]

/-- Lines 39-41: `printf(#A "." #B "=%d,%d,%d,%d\n", offsetof(struct A, B),
sizeof A.B, sizeof A.B[0], sizeof A.B / sizeof A.B[0])`.  The quotient is the
unsigned division of `size_t`. -/
def AF (h : Host) (A B : String) : String :=
  printf (A ++ "." ++ B ++ "=%d,%d,%d,%d\n")
    [(h.offsetof A B : Int), (h.sizeofField A B : Int), (h.sizeofElem A B : Int),
     ((h.sizeofField A B / h.sizeofElem A B : Nat) : Int)]

/-! ## The body of main -/

/-- Lines 390-394: the five default-action codes. -/
def ST : Int := 0
def SI : Int := 1
def SA : Int := 2
def SS : Int := 3
def SC : Int := 4

/-- One statement of `main`: a call of one of the five wrappers. -/
inductive Stmt where
  | S (A : String)
  | C (A : String)
  | C2 (A : String) (B : Int)
  | F (A B : String)
  | AF (A B : String)
  deriving DecidableEq, Repr

/-- The record a statement prints on host `h`. -/
def Stmt.exec (h : Host) : Stmt → String
  | .S A => Constants.S h A
  | .C A => Constants.C h A
  | .C2 A B => Constants.C2 h A B
  | .F A B => Constants.F h A B
  | .AF A B => Constants.AF h A B

/-- The statements of `main` (constants.c lines 43-515), in source order.
Declarations of the probe variables print nothing and are left out; so are
the calls that are commented out in the source. -/
def main : List Stmt :=
  [
    -- constants.c lines 44-60
    Stmt.C "O_RDONLY", Stmt.C "O_WRONLY", Stmt.C "O_RDWR", Stmt.C "O_APPEND", Stmt.C "O_CREAT",
    Stmt.C "O_TRUNC", Stmt.C "O_EXCL", Stmt.C "O_ASYNC", Stmt.C "O_LARGEFILE", Stmt.C "O_NOCTTY",
    Stmt.C "O_NONBLOCK", Stmt.C "O_SYNC",
    -- constants.c lines 63-84
    Stmt.C "S_IFSOCK", Stmt.C "S_IFLNK", Stmt.C "S_IFREG", Stmt.C "S_IFBLK", Stmt.C "S_IFDIR",
    Stmt.C "S_IFCHR", Stmt.C "S_IFIFO", Stmt.C "S_ISUID", Stmt.C "S_ISGID", Stmt.C "S_ISVTX",
    Stmt.C "S_IRWXU", Stmt.C "S_IRUSR", Stmt.C "S_IWUSR", Stmt.C "S_IXUSR", Stmt.C "S_IRWXG",
    Stmt.C "S_IRGRP", Stmt.C "S_IWGRP", Stmt.C "S_IXGRP", Stmt.C "S_IRWXO", Stmt.C "S_IROTH",
    Stmt.C "S_IWOTH", Stmt.C "S_IXOTH",
    -- constants.c lines 87-96
    Stmt.C "F_DUPFD", Stmt.C "F_GETFD", Stmt.C "F_SETFD", Stmt.C "FD_CLOEXEC", Stmt.C "F_GETFL",
    Stmt.C "F_SETFL",
    -- constants.c lines 99-107
    Stmt.C "EPERM", Stmt.C "ENOENT", Stmt.C "ESRCH", Stmt.C "EINTR", Stmt.C "EIO", Stmt.C "ENXIO",
    Stmt.C "E2BIG", Stmt.C "ENOEXEC", Stmt.C "EBADF",
    -- constants.c lines 109-118
    Stmt.C "ECHILD", Stmt.C "EAGAIN", Stmt.C "ENOMEM", Stmt.C "EACCES", Stmt.C "EFAULT",
    Stmt.C "ENOTBLK", Stmt.C "EBUSY", Stmt.C "EEXIST", Stmt.C "EXDEV", Stmt.C "ENODEV",
    -- constants.c lines 120-134
    Stmt.C "ENOTDIR", Stmt.C "EISDIR", Stmt.C "EINVAL", Stmt.C "ENFILE", Stmt.C "EMFILE",
    Stmt.C "ENOTTY", Stmt.C "ETXTBSY", Stmt.C "EFBIG", Stmt.C "ENOSPC", Stmt.C "ESPIPE",
    Stmt.C "EROFS", Stmt.C "EMLINK", Stmt.C "EPIPE", Stmt.C "EDOM", Stmt.C "ERANGE",
    -- constants.c lines 138-141
    Stmt.C "ENOSYS", Stmt.C "EISCONN", Stmt.C "ECONNREFUSED", Stmt.C "ENOTSOCK",
    -- constants.c lines 144-146
    Stmt.C "SEEK_SET", Stmt.C "SEEK_CUR", Stmt.C "SEEK_END",
    -- constants.c lines 149-157
    Stmt.C "PROT_EXEC", Stmt.C "PROT_READ", Stmt.C "PROT_WRITE", Stmt.C "PROT_NONE",
    Stmt.C "MAP_FIXED", Stmt.C "MAP_SHARED", Stmt.C "MAP_PRIVATE", Stmt.C "MAP_ANONYMOUS",
    Stmt.C "MAP_FAILED",
    -- constants.c lines 161-174
    Stmt.S "stat", Stmt.F "stat" "st_dev", Stmt.F "stat" "st_ino", Stmt.F "stat" "st_nlink",
    Stmt.F "stat" "st_uid", Stmt.F "stat" "st_gid", Stmt.F "stat" "st_rdev",
    Stmt.F "stat" "st_mode", Stmt.F "stat" "st_size", Stmt.F "stat" "st_blksize",
    Stmt.F "stat" "st_blocks", Stmt.F "stat" "st_atime", Stmt.F "stat" "st_mtime",
    Stmt.F "stat" "st_ctime",
    -- constants.c lines 178-180
    Stmt.S "iovec", Stmt.F "iovec" "iov_base", Stmt.F "iovec" "iov_len",
    -- constants.c lines 184-197
    Stmt.S "stat64", Stmt.F "stat64" "st_dev", Stmt.F "stat64" "st_ino",
    Stmt.F "stat64" "st_nlink", Stmt.F "stat64" "st_uid", Stmt.F "stat64" "st_gid",
    Stmt.F "stat64" "st_rdev", Stmt.F "stat64" "st_mode", Stmt.F "stat64" "st_size",
    Stmt.F "stat64" "st_blksize", Stmt.F "stat64" "st_blocks", Stmt.F "stat64" "st_atime",
    Stmt.F "stat64" "st_mtime", Stmt.F "stat64" "st_ctime",
    -- constants.c lines 200-205
    Stmt.S "utsname", Stmt.F "utsname" "sysname", Stmt.F "utsname" "nodename",
    Stmt.F "utsname" "release", Stmt.F "utsname" "version", Stmt.F "utsname" "machine",
    -- constants.c lines 208-215
    Stmt.S "sigaction", Stmt.F "sigaction" "sa_handler", Stmt.F "sigaction" "sa_sigaction",
    Stmt.F "sigaction" "sa_mask", Stmt.F "sigaction" "sa_flags", Stmt.F "sigaction" "sa_restorer",
    Stmt.C "SIG_DFL", Stmt.C "SIG_IGN",
    -- constants.c lines 218-222
    Stmt.C "FIOCLEX", Stmt.C "FIONCLEX", Stmt.C "FIONBIO", Stmt.C "FIOASYNC", Stmt.C "FIOQSIZE",
    -- constants.c lines 225-228
    Stmt.C "TIOCGWINSZ", Stmt.C "TIOCGPGRP", Stmt.C "TIOCSPGRP",
    -- constants.c lines 231-235
    Stmt.S "winsize", Stmt.F "winsize" "ws_row", Stmt.F "winsize" "ws_col",
    Stmt.F "winsize" "ws_xpixel", Stmt.F "winsize" "ws_ypixel",
    -- constants.c lines 238-257
    Stmt.C "TCGETA", Stmt.C "TCSETA", Stmt.C "TCSETAW", Stmt.C "TCSETAF", Stmt.C "TCSBRK",
    Stmt.C "TCXONC", Stmt.C "TCFLSH", Stmt.C "TCGETS", Stmt.C "TCSETS", Stmt.C "TCSETSW",
    Stmt.C "TCSETSF", Stmt.C "TIOCEXCL", Stmt.C "TIOCNXCL", Stmt.C "TIOCOUTQ", Stmt.C "TIOCSTI",
    Stmt.C "TIOCMGET", Stmt.C "TIOCMBIS", Stmt.C "TIOCMBIC", Stmt.C "TIOCMSET", Stmt.C "TIOCPKT",
    -- constants.c lines 260-271
    Stmt.C "BRKINT", Stmt.C "ICRNL", Stmt.C "IGNBRK", Stmt.C "IGNCR", Stmt.C "IGNPAR",
    Stmt.C "INLCR", Stmt.C "INPCK", Stmt.C "ISTRIP", Stmt.C "IXANY", Stmt.C "IXOFF",
    Stmt.C "IXON", Stmt.C "PARMRK",
    -- constants.c lines 273-301
    Stmt.C "OPOST", Stmt.C "ONLCR", Stmt.C "OCRNL", Stmt.C "ONOCR", Stmt.C "ONLRET",
    Stmt.C "OFILL", Stmt.C "OFDEL", Stmt.C "NLDLY", Stmt.C "NL0", Stmt.C "NL1", Stmt.C "CRDLY",
    Stmt.C "CR0", Stmt.C "CR1", Stmt.C "CR2", Stmt.C "CR3", Stmt.C "TABDLY", Stmt.C "TAB0",
    Stmt.C "TAB1", Stmt.C "TAB2", Stmt.C "TAB3", Stmt.C "BSDLY", Stmt.C "BS0", Stmt.C "BS1",
    Stmt.C "VTDLY", Stmt.C "VT0", Stmt.C "VT1", Stmt.C "FFDLY", Stmt.C "FF0", Stmt.C "FF1",
    -- constants.c lines 304-314
    Stmt.C "CLOCAL", Stmt.C "CREAD", Stmt.C "CSIZE", Stmt.C "CS5", Stmt.C "CS6", Stmt.C "CS7",
    Stmt.C "CS8", Stmt.C "CSTOPB", Stmt.C "HUPCL", Stmt.C "PARENB", Stmt.C "PARODD",
    -- constants.c lines 316-331
    Stmt.C "B0", Stmt.C "B600", Stmt.C "B50", Stmt.C "B1200", Stmt.C "B75", Stmt.C "B1800",
    Stmt.C "B110", Stmt.C "B2400", Stmt.C "B134", Stmt.C "B4800", Stmt.C "B150", Stmt.C "B9600",
    Stmt.C "B200", Stmt.C "B19200", Stmt.C "B300", Stmt.C "B38400",
    -- constants.c lines 333-341
    Stmt.C "ECHO", Stmt.C "ECHOE", Stmt.C "ECHOK", Stmt.C "ECHONL", Stmt.C "ICANON",
    Stmt.C "IEXTEN", Stmt.C "ISIG", Stmt.C "NOFLSH", Stmt.C "TOSTOP",
    -- constants.c lines 345-351
    Stmt.S "termios", Stmt.F "termios" "c_iflag", Stmt.F "termios" "c_oflag",
    Stmt.F "termios" "c_cflag", Stmt.F "termios" "c_lflag", Stmt.C "NCCS",
    Stmt.AF "termios" "c_cc",
    -- constants.c lines 354-356
    Stmt.S "timespec", Stmt.F "timespec" "tv_sec", Stmt.F "timespec" "tv_nsec",
    -- constants.c lines 359-364
    Stmt.S "dirent", Stmt.F "dirent" "d_ino", Stmt.F "dirent" "d_off", Stmt.F "dirent" "d_reclen",
    Stmt.F "dirent" "d_name",
    -- constants.c lines 367-372
    Stmt.S "dirent64", Stmt.F "dirent64" "d_ino", Stmt.F "dirent64" "d_off",
    Stmt.F "dirent64" "d_reclen", Stmt.F "dirent64" "d_type", Stmt.F "dirent64" "d_name",
    -- constants.c lines 374-375
    Stmt.C "WNOHANG", Stmt.C "WUNTRACED",
    -- constants.c lines 378-380
    Stmt.S "timeval", Stmt.F "timeval" "tv_sec", Stmt.F "timeval" "tv_usec",
    -- constants.c lines 383-385
    Stmt.S "timezone", Stmt.F "timezone" "tz_minuteswest", Stmt.F "timezone" "tz_dsttime",
    -- constants.c lines 395-425
    Stmt.C2 "SIGHUP" ST, Stmt.C2 "SIGINT" ST, Stmt.C2 "SIGQUIT" SA, Stmt.C2 "SIGILL" SA,
    Stmt.C2 "SIGTRAP" SA, Stmt.C2 "SIGABRT" SA, Stmt.C2 "SIGEMT" ST, Stmt.C2 "SIGFPE" SA,
    Stmt.C2 "SIGKILL" ST, Stmt.C2 "SIGBUS" SA, Stmt.C2 "SIGSEGV" SA, Stmt.C2 "SIGSYS" SA,
    Stmt.C2 "SIGPIPE" ST, Stmt.C2 "SIGALRM" ST, Stmt.C2 "SIGTERM" ST, Stmt.C2 "SIGUSR1" ST,
    Stmt.C2 "SIGUSR2" ST, Stmt.C2 "SIGCHLD" SI, Stmt.C2 "SIGPWR" SI, Stmt.C2 "SIGWINCH" SI,
    Stmt.C2 "SIGURG" SI, Stmt.C2 "SIGIO" SI, Stmt.C2 "SIGSTOP" SS, Stmt.C2 "SIGTSTP" SS,
    Stmt.C2 "SIGCONT" SC, Stmt.C2 "SIGTTIN" SS, Stmt.C2 "SIGTTOU" SS, Stmt.C2 "SIGVTALRM" ST,
    Stmt.C2 "SIGPROF" ST, Stmt.C2 "SIGXCPU" SA, Stmt.C2 "SIGXFSZ" SA,
    -- constants.c lines 428-430
    Stmt.C "SIG_BLOCK", Stmt.C "SIG_UNBLOCK", Stmt.C "SIG_SETMASK",
    -- constants.c lines 433-439
    Stmt.C "SA_NOCLDSTOP", Stmt.C "SA_NOCLDWAIT", Stmt.C "SA_RESETHAND", Stmt.C "SA_ONSTACK",
    Stmt.C "SA_RESTART", Stmt.C "SA_NODEFER", Stmt.C "SA_SIGINFO",
    -- constants.c lines 445-450
    Stmt.C "PF_INET", Stmt.C "PF_LOCAL", Stmt.C "PF_INET6",
    -- constants.c lines 452-457
    Stmt.C "SOCK_STREAM", Stmt.C "SOCK_DGRAM", Stmt.C "SOCK_SEQPACKET", Stmt.C "SOCK_RAW",
    Stmt.C "SOCK_RDM", Stmt.C "SOCK_PACKET",
    -- constants.c lines 459-476
    Stmt.C "SOL_SOCKET", Stmt.C "IPPROTO_TCP", Stmt.C "SO_ACCEPTCONN", Stmt.C "SO_BROADCAST",
    Stmt.C "SO_DEBUG", Stmt.C "SO_DONTROUTE", Stmt.C "SO_ERROR", Stmt.C "SO_KEEPALIVE",
    Stmt.C "SO_LINGER", Stmt.C "SO_OOBINLINE", Stmt.C "SO_RCVBUF", Stmt.C "SO_RCVLOWAT",
    Stmt.C "SO_RCVTIMEO", Stmt.C "SO_REUSEADDR", Stmt.C "SO_SNDBUF", Stmt.C "SO_SNDLOWAT",
    Stmt.C "SO_SNDTIMEO", Stmt.C "SO_TYPE",
    -- constants.c lines 480-482
    Stmt.S "sockaddr", Stmt.F "sockaddr" "sa_family", Stmt.F "sockaddr" "sa_data",
    -- constants.c lines 486-489
    Stmt.S "sockaddr_in", Stmt.F "sockaddr_in" "sin_family", Stmt.F "sockaddr_in" "sin_port",
    Stmt.F "sockaddr_in" "sin_addr",
    -- constants.c lines 492-493
    Stmt.S "in_addr", Stmt.F "in_addr" "s_addr",
    -- constants.c lines 495-511
    Stmt.C "VINTR", Stmt.C "VQUIT", Stmt.C "VERASE", Stmt.C "VKILL", Stmt.C "VMIN",
    Stmt.C "VTIME", Stmt.C "VEOL2", Stmt.C "VSWTC", Stmt.C "VSTART", Stmt.C "VSTOP",
    Stmt.C "VSUSP", Stmt.C "VREPRINT", Stmt.C "VDISCARD", Stmt.C "VWERASE", Stmt.C "VLNEXT",
    Stmt.C "VEOF", Stmt.C "VEOL",
    -- constants.c lines 515-515
    Stmt.S "fd_set"
  ]

/-- The records of the catalog on host `h`, in the order they are printed. -/
def emitted (h : Host) : List String := main.map (Stmt.exec h)

/-! ## The output stream and the exit status -/

/-- How a call into stdio ends: it returns success, it returns an error (the
negative result of `printf`), or the write it makes kills the process (a
closed pipe raises SIGPIPE, for which `main` installs no handler). -/
inductive Outcome where
  | ok
  | error
  | killed
  deriving DecidableEq, Repr

/-- Standard output as `main` uses it.  `put` is one `printf` call with the
text it formats, `close` is the flush that `exit` makes.  The state holds
whatever stdio and the system hold (buffered bytes, bytes written, counters):
how text is buffered, cut into writes and lost is left to the stream. -/
structure Stdio (σ : Type) where
  put : σ → String → σ × Outcome
  close : σ → σ × Outcome

/-- How the process ends: by `exit` with a status, or killed by a signal. -/
inductive Ending (σ : Type) where
  | exited (status : Int) (st : σ)
  | signaled (st : σ)

/-- The exit status, when the process was not killed. -/
def Ending.status {σ : Type} : Ending σ → Option Int
  | .exited c _ => some c
  | .signaled _ => none

/-- The state of the stream at the end. -/
def Ending.state {σ : Type} : Ending σ → σ
  | .exited _ st => st
  | .signaled st => st

/-- The statements of `main` from some point on.  Each statement is an
expression statement: it calls `printf` and drops the result, so the next
statement runs unless the call killed the process.  After the last one,
`return 0` (line 517) makes `exit` flush the stream, and the status is 0
whatever the flush returns. -/
def runFrom {σ : Type} (h : Host) (io : Stdio σ) : List Stmt → σ → Ending σ
  | [], st =>
    match io.close st with
    | (st', .killed) => .signaled st'
    | (st', _) => .exited 0 st'
  | s :: rest, st =>
    match io.put st (s.exec h) with
    | (st', .killed) => .signaled st'
    | (st', _) => runFrom h io rest st'

/-- The run of `main` on host `h` over the stream `io`. -/
def run {σ : Type} (h : Host) (io : Stdio σ) (st : σ) : Ending σ :=
  runFrom h io main st

/-- The stream after every text of the list was handed to it in order,
whatever each call returned. -/
def handAll {σ : Type} (io : Stdio σ) (st : σ) (texts : List String) : σ :=
  texts.foldl (fun s t => (io.put s t).1) st

/-- A block-buffered stream: the bytes held by stdio (newest first), their
number, the blocks that reached the file (oldest first) and the number of
writes made. -/
structure Buffered where
  pending : List Char
  count : Nat
  blocks : List String
  writes : Nat
  deriving DecidableEq, Repr

/-- One write of the held bytes; `res n` is how write number `n` ends.  A
write that does not succeed loses its bytes. -/
def Buffered.flush (res : Nat → Outcome) (b : Buffered) : Buffered × Outcome :=
  match res b.writes with
  | .ok => (⟨[], 0, b.blocks ++ [String.mk b.pending.reverse], b.writes + 1⟩, .ok)
  | o => (⟨[], 0, b.blocks, b.writes + 1⟩, o)

/-- The worse of two outcomes. -/
def Outcome.worst : Outcome → Outcome → Outcome
  | .killed, _ => .killed
  | _, .killed => .killed
  | .error, _ => .error
  | _, .error => .error
  | .ok, .ok => .ok

/-- One byte into the buffer; a buffer of `cap` bytes is written out. -/
def Buffered.putChar (cap : Nat) (res : Nat → Outcome) (bo : Buffered × Outcome) (c : Char) :
    Buffered × Outcome :=
  if bo.1.count + 1 = cap then
    ((Buffered.flush res ⟨c :: bo.1.pending, bo.1.count + 1, bo.1.blocks, bo.1.writes⟩).1,
     bo.2.worst (Buffered.flush res ⟨c :: bo.1.pending, bo.1.count + 1, bo.1.blocks,
       bo.1.writes⟩).2)
  else (⟨c :: bo.1.pending, bo.1.count + 1, bo.1.blocks, bo.1.writes⟩, bo.2)

/-- Stdio with a buffer of `cap` bytes over a file whose write number `n`
ends as `res n`: `printf` copies the text into the buffer byte by byte and
each full buffer is written as one block; `exit` writes what is left. -/
def blockBuffered (cap : Nat) (res : Nat → Outcome) : Stdio Buffered where
  put := fun b t => t.data.foldl (Buffered.putChar cap res) (b, .ok)
  close := fun b => if b.count = 0 then (b, .ok) else Buffered.flush res b

/-- A file whose first write fails with an error and whose later writes
succeed: a disk that is full at first. -/
def diskFull (n : Nat) : Outcome := if n = 0 then .error else .ok

/-- The empty stream before `main` starts. -/
def Buffered.empty : Buffered := ⟨[], 0, [], 0⟩

/-! ## Reading the catalog -/

/-- The text of a record before its first `=`. -/
def keyOf (line : String) : String := ⟨line.data.takeWhile (fun c => c != '=')⟩

/-- The number of values of a record: one more than its commas. -/
def valueCount (line : String) : Nat := line.data.count ',' + 1

/-- Letters, digits and `_`. -/
def isIdChar (c : Char) : Bool := c.isAlpha || c.isDigit || c == '_'

/-- A C identifier: a letter or `_`, then letters, digits and `_`. -/
def isIdent (s : String) : Bool :=
  match s.data with
  | [] => false
  | c :: cs => (c.isAlpha || c == '_') && cs.all isIdChar

/-- The key of the catalog grammar: `identifier | identifier "." identifier`. -/
def IsKey (k : String) : Prop :=
  isIdent k = true ∨ ∃ a b : String, isIdent a = true ∧ isIdent b = true ∧ k = a ++ "." ++ b

/-- One or more decimal digits. -/
def isDigits (l : List Char) : Bool := !l.isEmpty && l.all Char.isDigit

/-- A signed decimal integer: an optional `-`, then one or more digits. -/
def isDecimal (s : String) : Bool :=
  match s.data with
  | [] => false
  | c :: cs => if c = '-' then isDigits cs else isDigits (c :: cs)

/-- A line of the catalog grammar, `key "=" value ("," value)*` and a newline,
with 1, 2 or 4 values. -/
def Conforms (line : String) : Prop :=
  ∃ (key : String) (vals : List String),
    IsKey key ∧ (∀ v ∈ vals, isDecimal v = true) ∧
    (vals.length = 1 ∨ vals.length = 2 ∨ vals.length = 4) ∧
    line = key ++ "=" ++ ",".intercalate vals ++ "\n"

/-- A value that fits the 32-bit `int`. -/
def IsInt (v : Int) : Prop := -2147483648 ≤ v ∧ v < 2147483648

instance (v : Int) : Decidable (IsInt v) := by unfold IsInt; infer_instance

/-! ## The statements as syntax -/

/-- The key a statement stringifies into its format. -/
def Stmt.key : Stmt → String
  | .S A => "sizeof_" ++ A
  | .C A => A
  | .C2 A _ => A
  | .F A B => A ++ "." ++ B
  | .AF A B => A ++ "." ++ B

/-- The arguments a statement passes to `printf` after the format. -/
def Stmt.args (h : Host) : Stmt → List Int
  | .S A => [(h.sizeof A : Int)]
  | .C A => [castInt (h.const A)]
  | .C2 A B => [castInt (h.const A), castInt B]
  | .F A B => [(h.offsetof A B : Int), (h.sizeofField A B : Int)]
  | .AF A B => [(h.offsetof A B : Int), (h.sizeofField A B : Int), (h.sizeofElem A B : Int),
      ((h.sizeofField A B / h.sizeofElem A B : Nat) : Int)]

/-- The arguments of a statement are identifiers. -/
def Stmt.wf : Stmt → Bool
  | .S A => isIdent A
  | .C A => isIdent A
  | .C2 A _ => isIdent A
  | .F A B => isIdent A && isIdent B
  | .AF A B => isIdent A && isIdent B

/-- The signals: the first arguments of the `C2` calls, in source order. -/
def signalNames : List String :=
  main.filterMap (fun s => match s with | .C2 A _ => some A | _ => none)

/-- The code `main` passes to `C2` for signal `n`. -/
def classOf (n : String) : Option Int :=
  main.findSome? (fun s => match s with
    | .C2 A B => if A = n then some B else none
    | _ => none)

/-- The field statements of struct `s`, in source order. -/
def fieldStmts (s : String) : List Stmt :=
  main.filter (fun t => match t with
    | .F A _ => A == s
    | .AF A _ => A == s
    | _ => false)

/-- The structs of which `main` reports at least one field, in source order. -/
def layoutStructs : List String :=
  (main.filterMap (fun s => match s with
    | .F A _ => some A
    | .AF A _ => some A
    | _ => none)).eraseDups

/-- The size record of struct `s` followed by its field records. -/
def structBlock (h : Host) (s : String) : List String :=
  S h s :: (fieldStmts s).map (Stmt.exec h)

/-- A record that belongs to struct `s`: its key is `sizeof_s` or starts with `s.`. -/
def ofStruct (s : String) (k : String) : Bool :=
  k == "sizeof_" ++ s || (s ++ ".").data.isPrefixOf k.data

/-- The layout of struct `s` is one block of the catalog: the size record,
directly followed by the field records in source order, and no other record
of the struct anywhere else. -/
def OneBlock (h : Host) (s : String) : Prop :=
  ∃ pre post : List String,
    emitted h = pre ++ structBlock h s ++ post ∧
    ∀ l ∈ pre ++ post, ofStruct s (keyOf l) = false

/-- Where the block of struct `s` would sit in `main`: the statements before
the first `S(s)` and the statements after its field statements. -/
def blockSplit (s : String) : List Stmt × List Stmt :=
  (main.take (main.indexOf (Stmt.S s)),
   main.drop (main.indexOf (Stmt.S s) + 1 + (fieldStmts s).length))

/-- A call of `AF`. -/
def Stmt.isAF : Stmt → Bool
  | .AF _ _ => true
  | _ => false

/-- The character-array fields of the reported structs. -/
def charArrayFields : List (String × String) :=
  [("utsname", "sysname"), ("utsname", "nodename"), ("utsname", "release"),
   ("utsname", "version"), ("utsname", "machine"), ("dirent", "d_name"),
   ("dirent64", "d_name"), ("sockaddr", "sa_data")]

/-- The layout of struct `s` in `main`: the statements before `S(s)`, then
`S(s)` and the field statements of `s`, then the rest, with no statement of
the struct outside the block. -/
def blockFact (s : String) : Prop :=
  main = (blockSplit s).1 ++ (Stmt.S s :: fieldStmts s) ++ (blockSplit s).2 ∧
  ∀ t ∈ (blockSplit s).1 ++ (blockSplit s).2, ofStruct s t.key = false

instance (s : String) : Decidable (blockFact s) := by unfold blockFact; infer_instance

/-! ## An index of the keys -/

/-- A key as a number: its characters read as digits in base 1114112. -/
def encode (s : String) : Nat := s.data.foldl (fun acc c => acc * 1114112 + c.toNat) 0

/-- A binary search tree from numbers to positions. -/
inductive KeyTree where
  | leaf
  | node (l : KeyTree) (k v : Nat) (r : KeyTree)

/-- Insertion; a number already present keeps its position. -/
def KeyTree.insert : KeyTree → Nat → Nat → KeyTree
  | .leaf, k, v => .node .leaf k v .leaf
  | .node l k' v' r, k, v =>
    if k < k' then .node (l.insert k v) k' v' r
    else if k' < k then .node l k' v' (r.insert k v)
    else .node l k' v' r

/-- Lookup. -/
def KeyTree.find : KeyTree → Nat → Option Nat
  | .leaf, _ => none
  | .node l k' v' r, k =>
    if k < k' then l.find k else if k' < k then r.find k else some v'

/-- The tree that sends each number of the list to its position, counted
from `i`. -/
def indexTree : List Nat → Nat → KeyTree → KeyTree
  | [], _, t => t
  | k :: ks, i, t => indexTree ks (i + 1) (t.insert k i)

/-- The index of the keys of `main`. -/
def keyTree : KeyTree := indexTree (main.map (fun s => encode s.key)) 0 .leaf

/-! ## The reference table of default dispositions -/

/-- The default dispositions of signal(7). -/
inductive Disposition where
  | Term | Ign | Core | Stop | Cont
  deriving DecidableEq, Repr

/-- The codes of the dispositions: Term 0, Ign 1, Core 2, Stop 3, Cont 4. -/
def Disposition.code : Disposition → Int
  | .Term => 0
  | .Ign => 1
  | .Core => 2
  | .Stop => 3
  | .Cont => 4

/-- The disposition signal(7) gives each signal of the list. -/
def signal7 (n : String) : Option Disposition :=
  if n ∈ ["SIGHUP", "SIGINT", "SIGEMT", "SIGKILL", "SIGPIPE", "SIGALRM", "SIGTERM", "SIGUSR1",
      "SIGUSR2", "SIGPWR", "SIGIO", "SIGVTALRM", "SIGPROF"] then some .Term
  else if n ∈ ["SIGQUIT", "SIGILL", "SIGTRAP", "SIGABRT", "SIGFPE", "SIGBUS", "SIGSEGV",
      "SIGSYS", "SIGXCPU", "SIGXFSZ"] then some .Core
  else if n ∈ ["SIGCHLD", "SIGWINCH", "SIGURG"] then some .Ign
  else if n ∈ ["SIGSTOP", "SIGTSTP", "SIGTTIN", "SIGTTOU"] then some .Stop
  else if n = "SIGCONT" then some .Cont
  else none

/-- The table of signal(7) with `SIGPWR` and `SIGIO` moved to Ign. -/
def signal7Amended (n : String) : Option Disposition :=
  if n = "SIGPWR" ∨ n = "SIGIO" then some .Ign else signal7 n

/-- The code passed with a signal is the code of its disposition in the
amended table. -/
def Stmt.classOK : Stmt → Bool
  | .C2 A B => (signal7Amended A).map Disposition.code == some B
  | _ => true

/-! ## Sample hosts -/

/-- A host on which every constant, size and offset is 0 and every array
element has size 1. -/
def hostZero : Host :=
  ⟨fun _ => 0, fun _ => 0, fun _ _ => 0, fun _ _ => 0, fun _ _ => 1⟩

/-- A host with 32-bit all-ones `MAP_FAILED`, an ioctl number with bit 31
set, and 65-byte character arrays at offset 8. -/
def hostSample : Host :=
  ⟨fun A => if A = "MAP_FAILED" then 4294967295 else if A = "TCGETS" then 2147775501
      else if A = "SIGPWR" then 19 else if A = "SIGHUP" then 1 else 0,
   fun _ => 390, fun _ _ => 8, fun _ _ => 65, fun _ _ => 1⟩

/-! ## The cast to `int` -/

theorem castInt_castInt (v : Int) : castInt (castInt v) = castInt v := by
  unfold castInt; omega

theorem castInt_of_isInt {v : Int} (hv : IsInt v) : castInt v = v := by
  unfold IsInt at hv; unfold castInt; omega

theorem castInt_isInt (v : Int) : IsInt (castInt v) := by
  unfold IsInt castInt; omega

theorem isInt_natCast {n : Nat} (hn : n < 2147483648) : IsInt (n : Int) := by
  unfold IsInt; omega

/-! ## The formats -/

theorem printfAux_append (pre fmt : List Char) (args : List Int)
    (hp : '%' ∉ pre) : printfAux (pre ++ fmt) args = pre ++ printfAux fmt args := by
  induction pre with
  | nil => rfl
  | cons c pre ih =>
    have hc : c ≠ '%' := fun e => hp (by simp [e])
    have hpre : '%' ∉ pre := fun e => hp (by simp [e])
    have ih := ih hpre
    cases hq : pre ++ fmt with
    | nil =>
      have h1 : pre = [] := (List.append_eq_nil.mp hq).1
      have h2 : fmt = [] := (List.append_eq_nil.mp hq).2
      subst h1; subst h2
      simp [printfAux]
    | cons d rest =>
      rw [hq] at ih
      simp only [List.cons_append, hq, printfAux, hc, false_and, if_false, ih]

theorem printfAux_fmt1 (a : Int) :
    printfAux "=%d\n".data [a] = "=".data ++ (toString (castInt a)).data ++ "\n".data := by
  simp [printfAux]

theorem printfAux_fmt2 (a b : Int) :
    printfAux "=%d,%d\n".data [a, b]
      = "=".data ++ (toString (castInt a)).data ++ ",".data ++ (toString (castInt b)).data
        ++ "\n".data := by
  simp [printfAux]

theorem printfAux_fmt4 (a b c d : Int) :
    printfAux "=%d,%d,%d,%d\n".data [a, b, c, d]
      = "=".data ++ (toString (castInt a)).data ++ ",".data ++ (toString (castInt b)).data
        ++ ",".data ++ (toString (castInt c)).data ++ ",".data ++ (toString (castInt d)).data
        ++ "\n".data := by
  simp [printfAux]

/-- A format `k "=%d\n"` prints the key, `=`, the argument and a newline. -/
theorem printf_record1 (k : String) (a : Int) (hk : '%' ∉ k.data) :
    printf (k ++ "=%d\n") [a] = k ++ "=" ++ toString (castInt a) ++ "\n" := by
  apply String.ext
  unfold printf
  rw [String.data_append, printfAux_append _ _ _ hk, printfAux_fmt1]
  simp only [String.data_append, List.append_assoc]

theorem printf_record2 (k : String) (a b : Int) (hk : '%' ∉ k.data) :
    printf (k ++ "=%d,%d\n") [a, b]
      = k ++ "=" ++ toString (castInt a) ++ "," ++ toString (castInt b) ++ "\n" := by
  apply String.ext
  unfold printf
  rw [String.data_append, printfAux_append _ _ _ hk, printfAux_fmt2]
  simp only [String.data_append, List.append_assoc]

theorem printf_record4 (k : String) (a b c d : Int) (hk : '%' ∉ k.data) :
    printf (k ++ "=%d,%d,%d,%d\n") [a, b, c, d]
      = k ++ "=" ++ toString (castInt a) ++ "," ++ toString (castInt b) ++ ","
        ++ toString (castInt c) ++ "," ++ toString (castInt d) ++ "\n" := by
  apply String.ext
  unfold printf
  rw [String.data_append, printfAux_append _ _ _ hk, printfAux_fmt4]
  simp only [String.data_append, List.append_assoc]

/-! ## Identifiers -/

theorem isIdChar_of_isIdent {s : String} (hs : isIdent s = true) :
    ∀ c ∈ s.data, isIdChar c = true := by
  unfold isIdent at hs
  cases hd : s.data with
  | nil => simp
  | cons c cs =>
    rw [hd] at hs
    simp only [Bool.and_eq_true, Bool.or_eq_true, List.all_eq_true] at hs
    intro x hx
    rcases List.mem_cons.mp hx with rfl | hx
    · unfold isIdChar
      rcases hs.1 with h | h <;> simp [h]
    · exact hs.2 x hx

theorem not_mem_of_isIdent {s : String} (hs : isIdent s = true) (c : Char)
    (hc : isIdChar c = false) : c ∉ s.data := by
  intro hmem
  have := isIdChar_of_isIdent hs c hmem
  rw [hc] at this
  exact Bool.noConfusion this

theorem not_mem_sizeof (c : Char) (hc : isIdChar c = false) : c ∉ "sizeof_".data := by
  intro hmem
  have h : ∀ x ∈ "sizeof_".data, isIdChar x = true := by decide
  have := h c hmem
  rw [hc] at this
  exact Bool.noConfusion this

/-- The key of a statement with identifier arguments holds only letters,
digits, `_` and `.`. -/
theorem key_chars {s : Stmt} (hs : s.wf = true) (c : Char) (hc : isIdChar c = false)
    (hdot : c ≠ '.') : c ∉ s.key.data := by
  cases s with
  | S A =>
    simp only [Stmt.wf] at hs
    simp only [Stmt.key, String.data_append, List.mem_append, not_or]
    exact ⟨not_mem_sizeof c hc, not_mem_of_isIdent hs c hc⟩
  | C A => exact not_mem_of_isIdent hs c hc
  | C2 A B => exact not_mem_of_isIdent hs c hc
  | F A B =>
    simp only [Stmt.wf, Bool.and_eq_true] at hs
    simp only [Stmt.key, String.data_append, List.mem_append, not_or]
    refine ⟨⟨not_mem_of_isIdent hs.1 c hc, ?_⟩, not_mem_of_isIdent hs.2 c hc⟩
    intro hm
    have : c = '.' := by simpa using hm
    exact hdot this
  | AF A B =>
    simp only [Stmt.wf, Bool.and_eq_true] at hs
    simp only [Stmt.key, String.data_append, List.mem_append, not_or]
    refine ⟨⟨not_mem_of_isIdent hs.1 c hc, ?_⟩, not_mem_of_isIdent hs.2 c hc⟩
    intro hm
    have : c = '.' := by simpa using hm
    exact hdot this

theorem key_no_percent {s : Stmt} (hs : s.wf = true) : '%' ∉ s.key.data :=
  key_chars hs '%' (by decide) (by decide)

theorem key_no_eq {s : Stmt} (hs : s.wf = true) : '=' ∉ s.key.data :=
  key_chars hs '=' (by decide) (by decide)

set_option maxRecDepth 100000 in
theorem main_wf : ∀ s ∈ main, s.wf = true := by decide!

/-! ## What each statement prints -/

theorem printf_args1 (k : String) (a : Int) (hk : '%' ∉ k.data) :
    printf (k ++ "=%d\n") [a] = k ++ "=" ++
      ",".intercalate ([a].map (fun a => toString (castInt a))) ++ "\n" :=
  printf_record1 k a hk

theorem printf_args2 (k : String) (a b : Int) (hk : '%' ∉ k.data) :
    printf (k ++ "=%d,%d\n") [a, b] = k ++ "=" ++
      ",".intercalate ([a, b].map (fun a => toString (castInt a))) ++ "\n" := by
  rw [printf_record2 k a b hk]
  simp only [List.map, String.intercalate, String.intercalate.go, String.append_assoc]

theorem printf_args4 (k : String) (a b c d : Int) (hk : '%' ∉ k.data) :
    printf (k ++ "=%d,%d,%d,%d\n") [a, b, c, d] = k ++ "=" ++
      ",".intercalate ([a, b, c, d].map (fun a => toString (castInt a))) ++ "\n" := by
  rw [printf_record4 k a b c d hk]
  simp only [List.map, String.intercalate, String.intercalate.go, String.append_assoc]

/-- The record of a statement: its key, `=`, its arguments read as `int` and
separated by commas, and a newline. -/
theorem exec_eq (h : Host) {s : Stmt} (hs : s.wf = true) :
    s.exec h = s.key ++ "=" ++
      ",".intercalate ((s.args h).map (fun a => toString (castInt a))) ++ "\n" := by
  have hk := key_no_percent hs
  cases s with
  | S A => exact printf_args1 _ _ hk
  | C A => exact printf_args1 _ _ hk
  | C2 A B => exact printf_args2 _ _ _ hk
  | F A B => exact printf_args2 _ _ _ hk
  | AF A B => exact printf_args4 _ _ _ _ _ hk

theorem takeWhile_key (l r : List Char) (hl : '=' ∉ l) :
    List.takeWhile (fun c => c != '=') (l ++ '=' :: r) = l := by
  induction l with
  | nil => simp [List.takeWhile]
  | cons c l ih =>
    have hc : c ≠ '=' := fun e => hl (by simp [e])
    have hl2 : '=' ∉ l := fun e => hl (by simp [e])
    have ih2 := ih hl2
    simp only [List.cons_append, List.takeWhile_cons, bne_iff_ne, ne_eq, hc, not_false_eq_true,
      decide_True, if_true, ih2]

theorem keyOf_record (k r1 r2 : String) (hk : '=' ∉ k.data) :
    keyOf (k ++ "=" ++ r1 ++ r2) = k := by
  apply String.ext
  unfold keyOf
  simp only [String.data_append, List.append_assoc]
  exact takeWhile_key k.data (r1.data ++ r2.data) hk

/-- The key read back from the record of a statement is the key the statement
stringified. -/
theorem keyOf_exec (h : Host) {s : Stmt} (hs : s.wf = true) : keyOf (s.exec h) = s.key := by
  rw [exec_eq h hs]
  exact keyOf_record _ _ _ (key_no_eq hs)

theorem map_keyOf_exec (h : Host) (l : List Stmt) (hl : ∀ s ∈ l, s.wf = true) :
    (l.map (Stmt.exec h)).map keyOf = l.map Stmt.key := by
  rw [List.map_map]
  apply List.map_congr_left
  intro s hs
  exact keyOf_exec h (hl s hs)

theorem emitted_keys (h : Host) : (emitted h).map keyOf = main.map Stmt.key :=
  map_keyOf_exec h main main_wf

/-! ## Signed decimal -/

theorem digitChar_isDigit {d : Nat} (hd : d < 10) : (Nat.digitChar d).isDigit = true := by
  interval_cases d <;> rfl

theorem toDigitsCore_isDigit (fuel : Nat) : ∀ (n : Nat) (acc : List Char),
    (∀ c ∈ acc, c.isDigit = true) →
    ∀ c ∈ Nat.toDigitsCore 10 fuel n acc, c.isDigit = true := by
  induction fuel with
  | zero => intro n acc hacc; simpa [Nat.toDigitsCore] using hacc
  | succ fuel ih =>
    intro n acc hacc
    have hd : (Nat.digitChar (n % 10)).isDigit = true := digitChar_isDigit (Nat.mod_lt _ (by decide))
    have hacc2 : ∀ c ∈ Nat.digitChar (n % 10) :: acc, c.isDigit = true := by
      intro c hc
      rcases List.mem_cons.mp hc with rfl | hc
      · exact hd
      · exact hacc c hc
    simp only [Nat.toDigitsCore]
    split
    · exact hacc2
    · exact ih _ _ hacc2

theorem toDigitsCore_ne_nil (fuel : Nat) : ∀ (n : Nat) (acc : List Char),
    (acc ≠ [] ∨ 0 < fuel) → Nat.toDigitsCore 10 fuel n acc ≠ [] := by
  induction fuel with
  | zero =>
    intro n acc hacc
    rcases hacc with hacc | hacc
    · simpa [Nat.toDigitsCore] using hacc
    · exact absurd hacc (by decide)
  | succ fuel ih =>
    intro n acc _
    simp only [Nat.toDigitsCore]
    split
    · exact List.cons_ne_nil _ _
    · exact ih _ _ (Or.inl (List.cons_ne_nil _ _))

theorem isDigits_natRepr (n : Nat) : isDigits (Nat.repr n).data = true := by
  have h1 : (Nat.repr n).data = Nat.toDigitsCore 10 (n + 1) n [] := rfl
  rw [h1]
  unfold isDigits
  have hne := toDigitsCore_ne_nil (n + 1) n [] (Or.inr (Nat.succ_pos n))
  have hall := toDigitsCore_isDigit (n + 1) n [] (by simp)
  simp only [Bool.and_eq_true, Bool.not_eq_true', List.isEmpty_eq_false, List.all_eq_true]
  exact ⟨hne, hall⟩

theorem isDecimal_of_isDigits (s : String) (hs : isDigits s.data = true) :
    isDecimal s = true := by
  unfold isDecimal
  cases hd : s.data with
  | nil => rw [hd] at hs; exact absurd hs (by decide)
  | cons c cs =>
    rw [hd] at hs
    have hc : c.isDigit = true := by
      unfold isDigits at hs
      simp only [Bool.and_eq_true, List.all_eq_true] at hs
      exact hs.2 c (List.mem_cons_self _ _)
    have hne : c ≠ '-' := by
      intro e
      rw [e] at hc
      exact absurd hc (by decide)
    simp only [hne, if_false]
    exact hs

theorem isDecimal_neg (s : String) (hs : isDigits s.data = true) :
    isDecimal ("-" ++ s) = true := by
  unfold isDecimal
  have : ("-" ++ s).data = '-' :: s.data := by
    rw [String.data_append]; rfl
  rw [this]
  simp only [if_true]
  exact hs

/-- What `%d` prints is a signed decimal integer. -/
theorem isDecimal_toString (i : Int) : isDecimal (toString i) = true := by
  cases i with
  | ofNat n => exact isDecimal_of_isDigits _ (isDigits_natRepr n)
  | negSucc n => exact isDecimal_neg _ (isDigits_natRepr (n + 1))

theorem decimal_chars {s : String} (hs : isDecimal s = true) :
    ∀ c ∈ s.data, c = '-' ∨ c.isDigit = true := by
  unfold isDecimal at hs
  cases hd : s.data with
  | nil => simp
  | cons c cs =>
    rw [hd] at hs
    intro x hx
    by_cases hc : c = '-'
    · simp only [hc, if_true] at hs
      unfold isDigits at hs
      simp only [Bool.and_eq_true, List.all_eq_true] at hs
      rcases List.mem_cons.mp hx with rfl | hx
      · exact Or.inl hc
      · exact Or.inr (hs.2 x hx)
    · simp only [hc, if_false] at hs
      unfold isDigits at hs
      simp only [Bool.and_eq_true, List.all_eq_true] at hs
      exact Or.inr (hs.2 x hx)

/-! ## The grammar of a record -/

theorem isIdent_sizeof {A : String} (hA : isIdent A = true) :
    isIdent ("sizeof_" ++ A) = true := by
  have hchars := isIdChar_of_isIdent hA
  have hd : ("sizeof_" ++ A).data = 's' :: ("izeof_".data ++ A.data) := by
    rw [String.data_append]; rfl
  unfold isIdent
  rw [hd]
  simp only [Bool.and_eq_true, List.all_eq_true, List.mem_append]
  refine ⟨by decide, ?_⟩
  intro c hc
  rcases hc with hc | hc
  · have h : ∀ x ∈ "izeof_".data, isIdChar x = true := by decide
    exact h c hc
  · exact hchars c hc

theorem isKey_key {s : Stmt} (hs : s.wf = true) : IsKey s.key := by
  cases s with
  | S A => exact Or.inl (isIdent_sizeof hs)
  | C A => exact Or.inl hs
  | C2 A B => exact Or.inl hs
  | F A B =>
    simp only [Stmt.wf, Bool.and_eq_true] at hs
    exact Or.inr ⟨A, B, hs.1, hs.2, rfl⟩
  | AF A B =>
    simp only [Stmt.wf, Bool.and_eq_true] at hs
    exact Or.inr ⟨A, B, hs.1, hs.2, rfl⟩

theorem args_length (h : Host) (s : Stmt) :
    (s.args h).length = 1 ∨ (s.args h).length = 2 ∨ (s.args h).length = 4 := by
  cases s <;> simp [Stmt.args]

theorem conforms_exec (h : Host) {s : Stmt} (hs : s.wf = true) : Conforms (s.exec h) := by
  refine ⟨s.key, (s.args h).map (fun a => toString (castInt a)), isKey_key hs, ?_, ?_,
    exec_eq h hs⟩
  · intro v hv
    rcases List.mem_map.mp hv with ⟨a, _, rfl⟩
    exact isDecimal_toString _
  · rw [List.length_map]
    exact args_length h s

/-! ## Counting separators -/

theorem count_go (c : Char) (l : List String) : ∀ (acc : String),
    (∀ v ∈ l, c ∉ v.data) →
    (String.intercalate.go acc "," l).data.count c
      = acc.data.count c + l.length * (if c = ',' then 1 else 0) := by
  induction l with
  | nil => intro acc _; simp [String.intercalate.go]
  | cons a l ih =>
    intro acc hl
    have ha : c ∉ a.data := hl a (List.mem_cons_self _ _)
    have hl2 : ∀ v ∈ l, c ∉ v.data := fun v hv => hl v (List.mem_cons_of_mem _ hv)
    rw [String.intercalate.go, ih _ hl2]
    simp only [String.data_append, List.count_append, List.count_eq_zero_of_not_mem ha,
      List.length_cons]
    have hcomma : ",".data.count c = if c = ',' then 1 else 0 := by
      show [','].count c = _
      by_cases hc : c = ','
      · simp [hc]
      · have : c ∉ [','] := by simpa using hc
        simp [hc, List.count_eq_zero_of_not_mem this]
    rw [hcomma]
    ring

theorem count_intercalate (c : Char) (l : List String) (hne : l ≠ [])
    (hl : ∀ v ∈ l, c ∉ v.data) :
    (",".intercalate l).data.count c = (l.length - 1) * (if c = ',' then 1 else 0) := by
  cases l with
  | nil => exact absurd rfl hne
  | cons a l =>
    have ha : c ∉ a.data := hl a (List.mem_cons_self _ _)
    have hl2 : ∀ v ∈ l, c ∉ v.data := fun v hv => hl v (List.mem_cons_of_mem _ hv)
    rw [String.intercalate, count_go c l a hl2, List.count_eq_zero_of_not_mem ha]
    simp

theorem count_record (c : Char) (k : String) (vals : List String) (hne : vals ≠ [])
    (hk : c ∉ k.data) (hv : ∀ v ∈ vals, c ∉ v.data) :
    (k ++ "=" ++ ",".intercalate vals ++ "\n").data.count c
      = (if c = '=' then 1 else 0) + (vals.length - 1) * (if c = ',' then 1 else 0)
        + (if c = '\n' then 1 else 0) := by
  simp only [String.data_append, List.count_append, List.count_eq_zero_of_not_mem hk,
    count_intercalate c vals hne hv]
  have h1 : "=".data.count c = if c = '=' then 1 else 0 := by
    show ['='].count c = _
    by_cases hc : c = '='
    · simp [hc]
    · have : c ∉ ['='] := by simpa using hc
      simp [hc, List.count_eq_zero_of_not_mem this]
  have h2 : "\n".data.count c = if c = '\n' then 1 else 0 := by
    show ['\n'].count c = _
    by_cases hc : c = '\n'
    · simp [hc]
    · have : c ∉ ['\n'] := by simpa using hc
      simp [hc, List.count_eq_zero_of_not_mem this]
  rw [h1, h2]
  ring

theorem not_mem_decimal (c : Char) (h1 : c ≠ '-') (h2 : c.isDigit = false) (a : Int) :
    c ∉ (toString (castInt a)).data := by
  intro hm
  rcases decimal_chars (isDecimal_toString (castInt a)) c hm with e | e
  · exact h1 e
  · rw [h2] at e; exact Bool.noConfusion e

theorem count_exec (h : Host) {s : Stmt} (hs : s.wf = true) (c : Char)
    (hid : isIdChar c = false) (hdot : c ≠ '.') (hminus : c ≠ '-') :
    (s.exec h).data.count c
      = (if c = '=' then 1 else 0) + ((s.args h).length - 1) * (if c = ',' then 1 else 0)
        + (if c = '\n' then 1 else 0) := by
  have hdig : c.isDigit = false := by
    cases hd : c.isDigit with
    | false => rfl
    | true =>
      have : isIdChar c = true := by unfold isIdChar; simp [hd]
      rw [hid] at this; exact Bool.noConfusion this
  have hne : (s.args h).map (fun a => toString (castInt a)) ≠ [] := by
    intro e
    have hlen := congrArg List.length e
    rw [List.length_map, List.length_nil] at hlen
    rcases args_length h s with h1 | h1 | h1 <;> omega
  rw [exec_eq h hs, count_record c _ _ hne (key_chars hs c hid hdot), List.length_map]
  intro v hv
  rcases List.mem_map.mp hv with ⟨a, _, rfl⟩
  exact not_mem_decimal c hminus hdig a

/-- A record has as many values as the statement passes arguments. -/
theorem valueCount_exec (h : Host) {s : Stmt} (hs : s.wf = true) :
    valueCount (s.exec h) = (s.args h).length := by
  unfold valueCount
  rw [count_exec h hs ',' (by decide) (by decide) (by decide)]
  have := args_length h s
  simp
  omega

/-! ## Membership in the catalog -/

theorem exec_mem_emitted (h : Host) {s : Stmt} (hs : s ∈ main) : s.exec h ∈ emitted h :=
  List.mem_map_of_mem _ hs

theorem mem_emitted (h : Host) {l : String} (hl : l ∈ emitted h) :
    ∃ s ∈ main, s.exec h = l := List.mem_map.mp hl

set_option maxRecDepth 100000 in
theorem rdonly_mem_main : Stmt.C "O_RDONLY" ∈ main := by decide!

set_option maxRecDepth 100000 in
theorem mapFailed_mem_main : Stmt.C "MAP_FAILED" ∈ main := by decide!

theorem getLast_record (a : String) : (a ++ "\n").data.getLast? = some '\n' := by
  rw [String.data_append]
  show (a.data ++ ['\n']).getLast? = some '\n'
  simp

/-! ## The claims -/

/-- C1: each wrapper prints exactly its record and one newline: for a key
without `%` and values that fit `int`, `C` prints `k=v`, `C2` prints
`k=v1,v2`, `S` prints `sizeof_s=v`, `F` prints `s.f=off,sz` and `AF` prints
`s.f=off,sz,esz,cnt`, every integer in signed decimal; and on a host where
`O_RDONLY` is 0 the catalog contains the line `O_RDONLY=0`. -/
theorem C1_wrappers_print_records (h : Host) (k s f : String) (B : Int)
    (hk : '%' ∉ k.data) (hs : '%' ∉ s.data) (hf : '%' ∉ f.data)
    (hv : IsInt (h.const k)) (hB : IsInt B)
    (hsz : h.sizeof s < 2147483648) (hoff : h.offsetof s f < 2147483648)
    (hfsz : h.sizeofField s f < 2147483648) (hesz : h.sizeofElem s f < 2147483648) :
    C h k = k ++ "=" ++ toString (h.const k) ++ "\n" ∧
    C2 h k B = k ++ "=" ++ toString (h.const k) ++ "," ++ toString B ++ "\n" ∧
    S h s = "sizeof_" ++ s ++ "=" ++ toString (h.sizeof s) ++ "\n" ∧
    F h s f = s ++ "." ++ f ++ "=" ++ toString (h.offsetof s f) ++ ","
      ++ toString (h.sizeofField s f) ++ "\n" ∧
    AF h s f = s ++ "." ++ f ++ "=" ++ toString (h.offsetof s f) ++ ","
      ++ toString (h.sizeofField s f) ++ "," ++ toString (h.sizeofElem s f) ++ ","
      ++ toString (h.sizeofField s f / h.sizeofElem s f) ++ "\n" ∧
    (h.const "O_RDONLY" = 0 → "O_RDONLY=0\n" ∈ emitted h) := by
  have hsk : '%' ∉ ("sizeof_" ++ s).data := by
    rw [String.data_append]
    intro hm
    rcases List.mem_append.mp hm with hm | hm
    · exact absurd hm (by decide)
    · exact hs hm
  have hfk : '%' ∉ (s ++ "." ++ f).data := by
    rw [String.data_append, String.data_append]
    intro hm
    rcases List.mem_append.mp hm with hm | hm
    · rcases List.mem_append.mp hm with hm | hm
      · exact hs hm
      · exact absurd hm (by decide)
    · exact hf hm
  have hcnt : h.sizeofField s f / h.sizeofElem s f < 2147483648 :=
    Nat.lt_of_le_of_lt (Nat.div_le_self _ _) hfsz
  refine ⟨?_, ?_, ?_, ?_, ?_, ?_⟩
  · unfold C
    rw [printf_record1 _ _ hk, castInt_castInt, castInt_of_isInt hv]
  · unfold C2
    rw [printf_record2 _ _ _ hk, castInt_castInt, castInt_castInt, castInt_of_isInt hv,
      castInt_of_isInt hB]
  · unfold S
    rw [printf_record1 _ _ hsk, castInt_of_isInt (isInt_natCast hsz)]
    rfl
  · unfold F
    rw [printf_record2 _ _ _ hfk, castInt_of_isInt (isInt_natCast hoff),
      castInt_of_isInt (isInt_natCast hfsz)]
    rfl
  · unfold AF
    rw [printf_record4 _ _ _ _ _ hfk, castInt_of_isInt (isInt_natCast hoff),
      castInt_of_isInt (isInt_natCast hfsz), castInt_of_isInt (isInt_natCast hesz),
      castInt_of_isInt (isInt_natCast hcnt)]
    rfl
  · intro h0
    have hmem := exec_mem_emitted h rdonly_mem_main
    have he : Stmt.exec h (Stmt.C "O_RDONLY") = "O_RDONLY=0\n" := by
      show C h "O_RDONLY" = _
      unfold C
      rw [printf_record1 _ _ (by decide), castInt_castInt, h0,
        castInt_of_isInt (by decide : IsInt 0)]
      decide
    rw [he] at hmem
    exact hmem

theorem C1_wrappers_print_records_witness :
    C hostSample "SIGHUP" = "SIGHUP" ++ "=" ++ toString (hostSample.const "SIGHUP") ++ "\n" ∧
    C2 hostSample "SIGHUP" 0
      = "SIGHUP" ++ "=" ++ toString (hostSample.const "SIGHUP") ++ "," ++ toString (0 : Int)
        ++ "\n" ∧
    S hostSample "utsname"
      = "sizeof_" ++ "utsname" ++ "=" ++ toString (hostSample.sizeof "utsname") ++ "\n" ∧
    F hostSample "utsname" "sysname"
      = "utsname" ++ "." ++ "sysname" ++ "=" ++ toString (hostSample.offsetof "utsname" "sysname")
        ++ "," ++ toString (hostSample.sizeofField "utsname" "sysname") ++ "\n" ∧
    AF hostSample "utsname" "sysname"
      = "utsname" ++ "." ++ "sysname" ++ "=" ++ toString (hostSample.offsetof "utsname" "sysname")
        ++ "," ++ toString (hostSample.sizeofField "utsname" "sysname") ++ ","
        ++ toString (hostSample.sizeofElem "utsname" "sysname") ++ ","
        ++ toString (hostSample.sizeofField "utsname" "sysname"
            / hostSample.sizeofElem "utsname" "sysname") ++ "\n" ∧
    (hostSample.const "O_RDONLY" = 0 → "O_RDONLY=0\n" ∈ emitted hostSample) :=
  C1_wrappers_print_records hostSample "SIGHUP" "utsname" "sysname" 0
    (by decide) (by decide) (by decide) (by decide) (by decide)
    (by decide) (by decide) (by decide) (by decide)

/-! ## The keys of main are distinct -/

set_option maxRecDepth 100000 in
theorem main_keys_indexed :
    (main.map Stmt.key).map (fun k => keyTree.find (encode k))
      = (List.range 369).map some := by decide!

theorem main_keys_nodup : (main.map Stmt.key).Nodup := by
  have h1 : ((main.map Stmt.key).map (fun k => keyTree.find (encode k))).Nodup := by
    rw [main_keys_indexed]
    exact (List.nodup_range 369).map (Option.some_injective _)
  exact List.Nodup.of_map _ h1

/-- In a list with distinct keys the statements with the key of `x` are `x`
alone. -/
theorem filter_key_singleton (l : List Stmt) (hnd : (l.map Stmt.key).Nodup)
    (x : Stmt) (hx : x ∈ l) : l.filter (fun s => s.key = x.key) = [x] := by
  induction l with
  | nil => exact absurd hx (List.not_mem_nil _)
  | cons a l ih =>
    rw [List.map_cons, List.nodup_cons] at hnd
    rcases List.mem_cons.mp hx with rfl | hx
    · have hnone : l.filter (fun s => s.key = x.key) = [] := by
        rw [List.filter_eq_nil_iff]
        intro s hs hk
        exact hnd.1 (List.mem_map.mpr ⟨s, hs, of_decide_eq_true hk⟩)
      rw [List.filter_cons_of_pos (by simp), hnone]
    · have hne : ¬ a.key = x.key := by
        intro e
        exact hnd.1 (List.mem_map.mpr ⟨x, hx, e.symm⟩)
      rw [List.filter_cons_of_neg (by simpa using hne)]
      exact ih hnd.2 hx

theorem main_filter_key {x : Stmt} (hx : x ∈ main) :
    main.filter (fun s => s.key = x.key) = [x] :=
  filter_key_singleton main main_keys_nodup x hx

/-- C2: on every host the keys of the emitted records, the text before the
`=`, are pairwise distinct. -/
theorem C2_keys_pairwise_distinct (h : Host) : ((emitted h).map keyOf).Nodup := by
  rw [emitted_keys]
  exact main_keys_nodup

/-- C9: on every host every emitted record conforms to the catalog grammar:
a key that is an identifier or two identifiers joined by `.`, one `=`, then
1, 2 or 4 signed decimal integers separated by commas, and exactly one
newline, which ends the record. -/
theorem C9_records_conform (h : Host) (l : String) (hl : l ∈ emitted h) :
    Conforms l ∧ l.data.count '=' = 1 ∧ l.data.count '\n' = 1 ∧
      l.data.getLast? = some '\n' ∧
      (valueCount l = 1 ∨ valueCount l = 2 ∨ valueCount l = 4) := by
  obtain ⟨s, hs, rfl⟩ := mem_emitted h hl
  have hwf := main_wf s hs
  refine ⟨conforms_exec h hwf, ?_, ?_, ?_, ?_⟩
  · rw [count_exec h hwf '=' (by decide) (by decide) (by decide)]
    simp
  · rw [count_exec h hwf '\n' (by decide) (by decide) (by decide)]
    simp
  · rw [exec_eq h hwf]
    exact getLast_record _
  · rw [valueCount_exec h hwf]
    exact args_length h s

set_option maxRecDepth 100000 in
theorem C9_records_conform_witness :
    Conforms "SIGPWR=19,1\n" ∧ "SIGPWR=19,1\n".data.count '=' = 1 ∧
      "SIGPWR=19,1\n".data.count '\n' = 1 ∧
      "SIGPWR=19,1\n".data.getLast? = some '\n' ∧
      (valueCount "SIGPWR=19,1\n" = 1 ∨ valueCount "SIGPWR=19,1\n" = 2 ∨
        valueCount "SIGPWR=19,1\n" = 4) :=
  C9_records_conform hostSample "SIGPWR=19,1\n" (by decide!)

/-- C10: the value `C` prints is the host's value cast to the 32-bit `int`:
it is congruent to the host's value modulo `2^32`, lies in `[-2^31, 2^31)`,
and is the host's value itself when that fits; an all-ones `MAP_FAILED` is
printed as `-1` and a value with bit 31 set is printed as a negative number. -/
theorem C10_scalar_value_is_cast (h : Host) (k : String) (v : Int)
    (hk : '%' ∉ k.data) (hv : h.const k = v) :
    C h k = k ++ "=" ++ toString (castInt v) ++ "\n" ∧
    (castInt v - v) % 4294967296 = 0 ∧
    -2147483648 ≤ castInt v ∧ castInt v < 2147483648 ∧
    (-2147483648 ≤ v ∧ v < 2147483648 → castInt v = v) ∧
    (2147483648 ≤ v ∧ v < 4294967296 → castInt v = v - 4294967296 ∧ castInt v < 0) ∧
    (h.const "MAP_FAILED" = 4294967295 ∨ h.const "MAP_FAILED" = 18446744073709551615 →
      "MAP_FAILED=-1\n" ∈ emitted h) := by
  refine ⟨?_, ?_, ?_, ?_, ?_, ?_, ?_⟩
  · unfold C
    rw [printf_record1 _ _ hk, castInt_castInt, hv]
  · unfold castInt; omega
  · unfold castInt; omega
  · unfold castInt; omega
  · intro hr; unfold castInt; omega
  · intro hr; unfold castInt; omega
  · intro hm
    have hmem := exec_mem_emitted h mapFailed_mem_main
    have hc : castInt (h.const "MAP_FAILED") = -1 := by
      rcases hm with e | e <;> rw [e] <;> unfold castInt <;> decide
    have he : Stmt.exec h (Stmt.C "MAP_FAILED") = "MAP_FAILED=-1\n" := by
      show C h "MAP_FAILED" = _
      unfold C
      rw [printf_record1 _ _ (by decide), castInt_castInt, hc]
      decide
    rw [he] at hmem
    exact hmem

theorem C10_scalar_value_is_cast_witness :
    C hostSample "TCGETS" = "TCGETS" ++ "=" ++ toString (castInt 2147775501) ++ "\n" ∧
    (castInt 2147775501 - 2147775501) % 4294967296 = 0 ∧
    -2147483648 ≤ castInt 2147775501 ∧ castInt 2147775501 < 2147483648 ∧
    (-2147483648 ≤ (2147775501 : Int) ∧ (2147775501 : Int) < 2147483648 →
      castInt 2147775501 = 2147775501) ∧
    (2147483648 ≤ (2147775501 : Int) ∧ (2147775501 : Int) < 4294967296 →
      castInt 2147775501 = 2147775501 - 4294967296 ∧ castInt 2147775501 < 0) ∧
    (hostSample.const "MAP_FAILED" = 4294967295 ∨
      hostSample.const "MAP_FAILED" = 18446744073709551615 →
      "MAP_FAILED=-1\n" ∈ emitted hostSample) :=
  C10_scalar_value_is_cast hostSample "TCGETS" 2147775501 (by decide) (by decide)

/-! ## The record of a key -/

theorem filter_map_exec (h : Host) (n : String) (l : List Stmt)
    (hl : ∀ s ∈ l, s.wf = true) :
    (l.map (Stmt.exec h)).filter (fun x => keyOf x = n)
      = (l.filter (fun s => s.key = n)).map (Stmt.exec h) := by
  induction l with
  | nil => rfl
  | cons s l ih =>
    have hs := hl s (List.mem_cons_self _ _)
    have ih := ih (fun t ht => hl t (List.mem_cons_of_mem _ ht))
    simp only [List.map_cons, List.filter_cons, keyOf_exec h hs, ih]
    split <;> rfl

/-- The records with key `n` are the records of the statements with key `n`. -/
theorem filter_emitted (h : Host) (n : String) :
    (emitted h).filter (fun l => keyOf l = n)
      = (main.filter (fun s => s.key = n)).map (Stmt.exec h) :=
  filter_map_exec h n main main_wf

set_option maxRecDepth 100000 in
theorem signalNames_eq : signalNames =
    ["SIGHUP", "SIGINT", "SIGQUIT", "SIGILL", "SIGTRAP", "SIGABRT", "SIGEMT", "SIGFPE",
     "SIGKILL", "SIGBUS", "SIGSEGV", "SIGSYS", "SIGPIPE", "SIGALRM", "SIGTERM", "SIGUSR1",
     "SIGUSR2", "SIGCHLD", "SIGPWR", "SIGWINCH", "SIGURG", "SIGIO", "SIGSTOP", "SIGTSTP",
     "SIGCONT", "SIGTTIN", "SIGTTOU", "SIGVTALRM", "SIGPROF", "SIGXCPU", "SIGXFSZ"] := by
  decide!

set_option maxRecDepth 100000 in
theorem main_classOK : ∀ s ∈ main, s.classOK = true := by decide!

theorem isInt_code (d : Disposition) : IsInt d.code ∧ 0 ≤ d.code ∧ d.code ≤ 4 := by
  cases d <;> exact ⟨by decide, by decide, by decide⟩

/-- Each signal of the list is passed to `C2` once, with the code of its
disposition in the amended table. -/
theorem signal_stmt (n : String) (hn : n ∈ signalNames) :
    ∃ d : Disposition, signal7Amended n = some d ∧
      main.filter (fun s => s.key = n) = [Stmt.C2 n d.code] := by
  unfold signalNames at hn
  obtain ⟨s, hs, hf⟩ := List.mem_filterMap.mp hn
  have hok := main_classOK s hs
  cases s with
  | C2 A B =>
    simp only [Option.some.injEq] at hf
    subst hf
    simp only [Stmt.classOK] at hok
    cases hd : signal7Amended A with
    | none => rw [hd] at hok; simp at hok
    | some d =>
      rw [hd] at hok
      have hB : d.code = B := by simpa using hok
      subst hB
      exact ⟨d, rfl, main_filter_key hs⟩
  | S A => exact absurd hf (by simp)
  | C A => exact absurd hf (by simp)
  | F A B => exact absurd hf (by simp)
  | AF A B => exact absurd hf (by simp)

/-- C4: every signal of the list has exactly one record in the catalog; its
first value is the number the host gives the signal and its second value is
one of the codes 0 to 4.  The list has 31 signals, each named once. -/
theorem C4_signal_records (h : Host) (n : String) (hn : n ∈ signalNames)
    (hr : IsInt (h.const n)) :
    signalNames.length = 31 ∧ signalNames.Nodup ∧
    ∃ c : Int, (0 ≤ c ∧ c ≤ 4) ∧
      (emitted h).filter (fun l => keyOf l = n)
        = [n ++ "=" ++ toString (h.const n) ++ "," ++ toString c ++ "\n"] := by
  refine ⟨by rw [signalNames_eq]; rfl, by rw [signalNames_eq]; decide, ?_⟩
  obtain ⟨d, _, hf⟩ := signal_stmt n hn
  have hcode := isInt_code d
  refine ⟨d.code, hcode.2, ?_⟩
  have hmem : Stmt.C2 n d.code ∈ main := by
    have : Stmt.C2 n d.code ∈ main.filter (fun s => s.key = n) := by
      rw [hf]; exact List.mem_singleton.mpr rfl
    exact (List.mem_filter.mp this).1
  have hk : '%' ∉ n.data := key_no_percent (main_wf _ hmem)
  rw [filter_emitted, hf]
  show [C2 h n d.code] = _
  unfold C2
  rw [printf_record2 _ _ _ hk, castInt_castInt, castInt_castInt, castInt_of_isInt hr,
    castInt_of_isInt hcode.1]

set_option maxRecDepth 100000 in
theorem C4_signal_records_witness :
    signalNames.length = 31 ∧ signalNames.Nodup ∧
    ∃ c : Int, (0 ≤ c ∧ c ≤ 4) ∧
      (emitted hostSample).filter (fun l => keyOf l = "SIGHUP")
        = ["SIGHUP" ++ "=" ++ toString (hostSample.const "SIGHUP") ++ "," ++ toString c
            ++ "\n"] :=
  C4_signal_records hostSample "SIGHUP" (by decide!) (by decide)

/-! ## The classification -/

set_option maxRecDepth 100000 in
theorem signal_classOf : ∀ n ∈ signalNames,
    classOf n = (signal7Amended n).map Disposition.code := by decide!

/-- C5, counterexample: the record of `SIGPWR` carries code 1 (ignore) while
signal(7) gives `SIGPWR` the disposition Term, code 0. -/
theorem C5_counterexample :
    (emitted hostSample).filter (fun l => keyOf l = "SIGPWR") = ["SIGPWR=19,1\n"] ∧
    (signal7 "SIGPWR").map Disposition.code = some 0 ∧
    classOf "SIGPWR" = some 1 := by decide!

/-- C5, amended: the code emitted for a signal of the list is the code of its
disposition in signal(7) for every signal except `SIGPWR` and `SIGIO`, which
are emitted with code 1 (ignore); the code does not depend on the host. -/
theorem C5_classification_amended (h : Host) (n : String) (hn : n ∈ signalNames) :
    ∃ d : Disposition, signal7Amended n = some d ∧
      (n ≠ "SIGPWR" → n ≠ "SIGIO" → signal7 n = some d) ∧
      classOf n = some d.code ∧
      (emitted h).filter (fun l => keyOf l = n)
        = [n ++ "=" ++ toString (castInt (h.const n)) ++ "," ++ toString d.code ++ "\n"] := by
  obtain ⟨d, hd, hf⟩ := signal_stmt n hn
  have hmem : Stmt.C2 n d.code ∈ main := by
    have : Stmt.C2 n d.code ∈ main.filter (fun s => s.key = n) := by
      rw [hf]; exact List.mem_singleton.mpr rfl
    exact (List.mem_filter.mp this).1
  have hk : '%' ∉ n.data := key_no_percent (main_wf _ hmem)
  have hcode := (isInt_code d).1
  refine ⟨d, hd, ?_, ?_, ?_⟩
  · intro h1 h2
    unfold signal7Amended at hd
    simp only [h1, h2, or_self, if_false] at hd
    exact hd
  · rw [signal_classOf n hn, hd]
    rfl
  · rw [filter_emitted, hf]
    show [C2 h n d.code] = _
    unfold C2
    rw [printf_record2 _ _ _ hk, castInt_castInt, castInt_castInt, castInt_of_isInt hcode]

set_option maxRecDepth 100000 in
theorem C5_classification_amended_witness :
    ∃ d : Disposition, signal7Amended "SIGPWR" = some d ∧
      ("SIGPWR" ≠ "SIGPWR" → "SIGPWR" ≠ "SIGIO" → signal7 "SIGPWR" = some d) ∧
      classOf "SIGPWR" = some d.code ∧
      (emitted hostSample).filter (fun l => keyOf l = "SIGPWR")
        = ["SIGPWR" ++ "=" ++ toString (castInt (hostSample.const "SIGPWR")) ++ ","
            ++ toString d.code ++ "\n"] :=
  C5_classification_amended hostSample "SIGPWR" (by decide!)

/-! ## Struct blocks -/

theorem emitted_of_split (h : Host) (s : String) (P B Q : List Stmt)
    (hmain : main = P ++ B ++ Q) (hPQ : ∀ t ∈ P ++ Q, ofStruct s t.key = false) :
    emitted h = P.map (Stmt.exec h) ++ B.map (Stmt.exec h) ++ Q.map (Stmt.exec h) ∧
    ∀ l ∈ P.map (Stmt.exec h) ++ Q.map (Stmt.exec h), ofStruct s (keyOf l) = false := by
  constructor
  · have hmap := congrArg (List.map (Stmt.exec h)) hmain
    rw [List.map_append, List.map_append] at hmap
    exact hmap
  · intro l hl
    rw [← List.map_append] at hl
    obtain ⟨t, ht, rfl⟩ := List.mem_map.mp hl
    have htm : t ∈ P ++ B ++ Q := by
      rcases List.mem_append.mp ht with ht | ht
      · exact List.mem_append_left _ (List.mem_append_left _ ht)
      · exact List.mem_append_right _ ht
    rw [← hmain] at htm
    rw [keyOf_exec h (main_wf t htm)]
    exact hPQ t ht

set_option maxRecDepth 100000 in
theorem layoutStructs_eq : layoutStructs =
    ["stat", "iovec", "stat64", "utsname", "sigaction", "winsize", "termios", "timespec",
     "dirent", "dirent64", "timeval", "timezone", "sockaddr", "sockaddr_in", "in_addr"] := by
  decide!

set_option maxRecDepth 100000 in
theorem block_stat : blockFact "stat" := by decide!

set_option maxRecDepth 100000 in
theorem block_iovec : blockFact "iovec" := by decide!

set_option maxRecDepth 100000 in
theorem block_stat64 : blockFact "stat64" := by decide!

set_option maxRecDepth 100000 in
theorem block_utsname : blockFact "utsname" := by decide!

set_option maxRecDepth 100000 in
theorem block_sigaction : blockFact "sigaction" := by decide!

set_option maxRecDepth 100000 in
theorem block_winsize : blockFact "winsize" := by decide!

set_option maxRecDepth 100000 in
theorem block_timespec : blockFact "timespec" := by decide!

set_option maxRecDepth 100000 in
theorem block_dirent : blockFact "dirent" := by decide!

set_option maxRecDepth 100000 in
theorem block_dirent64 : blockFact "dirent64" := by decide!

set_option maxRecDepth 100000 in
theorem block_timeval : blockFact "timeval" := by decide!

set_option maxRecDepth 100000 in
theorem block_timezone : blockFact "timezone" := by decide!

set_option maxRecDepth 100000 in
theorem block_sockaddr : blockFact "sockaddr" := by decide!

set_option maxRecDepth 100000 in
theorem block_sockaddr_in : blockFact "sockaddr_in" := by decide!

set_option maxRecDepth 100000 in
theorem block_in_addr : blockFact "in_addr" := by decide!

theorem blocks_in_main (s : String) (hs : s ∈ layoutStructs) (hne : s ≠ "termios") :
    blockFact s := by
  rw [layoutStructs_eq] at hs
  simp only [List.mem_cons, List.mem_singleton, List.not_mem_nil, or_false] at hs
  rcases hs with rfl | rfl | rfl | rfl | rfl | rfl | rfl | rfl | rfl | rfl | rfl | rfl | rfl
    | rfl | rfl
  · exact block_stat
  · exact block_iovec
  · exact block_stat64
  · exact block_utsname
  · exact block_sigaction
  · exact block_winsize
  · exact absurd rfl hne
  · exact block_timespec
  · exact block_dirent
  · exact block_dirent64
  · exact block_timeval
  · exact block_timezone
  · exact block_sockaddr
  · exact block_sockaddr_in
  · exact block_in_addr

set_option maxRecDepth 100000 in
theorem termios_in_main :
    main = (blockSplit "termios").1 ++
        [Stmt.S "termios", Stmt.F "termios" "c_iflag", Stmt.F "termios" "c_oflag",
         Stmt.F "termios" "c_cflag", Stmt.F "termios" "c_lflag", Stmt.C "NCCS",
         Stmt.AF "termios" "c_cc"] ++ main.drop (main.indexOf (Stmt.S "termios") + 7) ∧
    ∀ t ∈ (blockSplit "termios").1 ++ main.drop (main.indexOf (Stmt.S "termios") + 7),
      ofStruct "termios" t.key = false := by decide!

set_option maxRecDepth 100000 in
theorem termios_keys_not_contiguous :
    ¬ ((Stmt.S "termios" :: fieldStmts "termios").map Stmt.key <:+: main.map Stmt.key) := by
  decide!

set_option maxRecDepth 100000 in
theorem termios_block_wf : ∀ s ∈ Stmt.S "termios" :: fieldStmts "termios", s.wf = true := by
  decide!

/-- C6, counterexample: the records of `termios` are not one block: between
`sizeof_termios` and `termios.c_cc` the catalog has the record of `NCCS`. -/
theorem C6_counterexample : ¬ OneBlock hostZero "termios" := by
  rintro ⟨pre, post, heq, _⟩
  apply termios_keys_not_contiguous
  have hk := congrArg (List.map keyOf) heq
  rw [emitted_keys, List.map_append, List.map_append] at hk
  have hb : (structBlock hostZero "termios").map keyOf
      = (Stmt.S "termios" :: fieldStmts "termios").map Stmt.key :=
    map_keyOf_exec hostZero _ termios_block_wf
  rw [hb] at hk
  exact ⟨pre.map keyOf, post.map keyOf, hk.symm⟩

/-- C6, amended: every struct with reported fields other than `termios` has
one `sizeof_` record, directly followed by its field records in source order,
and no other record of the struct elsewhere.  For `termios` the size record is
followed by `c_iflag`, `c_oflag`, `c_cflag`, `c_lflag`, then the scalar record
`NCCS`, then `c_cc`. -/
theorem C6_struct_blocks_amended (h : Host) (s : String) (hs : s ∈ layoutStructs)
    (hne : s ≠ "termios") :
    layoutStructs =
      ["stat", "iovec", "stat64", "utsname", "sigaction", "winsize", "termios", "timespec",
       "dirent", "dirent64", "timeval", "timezone", "sockaddr", "sockaddr_in", "in_addr"] ∧
    OneBlock h s ∧
    ∃ pre post : List String,
      emitted h = pre ++
        [S h "termios", F h "termios" "c_iflag", F h "termios" "c_oflag",
         F h "termios" "c_cflag", F h "termios" "c_lflag", C h "NCCS",
         AF h "termios" "c_cc"] ++ post ∧
      ∀ l ∈ pre ++ post, ofStruct "termios" (keyOf l) = false := by
  refine ⟨layoutStructs_eq, ?_, ?_⟩
  · obtain ⟨hmain, hPQ⟩ := blocks_in_main s hs hne
    obtain ⟨he, hk⟩ := emitted_of_split h s _ _ _ hmain hPQ
    exact ⟨_, _, he, hk⟩
  · obtain ⟨hmain, hPQ⟩ := termios_in_main
    obtain ⟨he, hk⟩ := emitted_of_split h "termios" _ _ _ hmain hPQ
    exact ⟨_, _, he, hk⟩

set_option maxRecDepth 100000 in
theorem C6_struct_blocks_amended_witness :
    layoutStructs =
      ["stat", "iovec", "stat64", "utsname", "sigaction", "winsize", "termios", "timespec",
       "dirent", "dirent64", "timeval", "timezone", "sockaddr", "sockaddr_in", "in_addr"] ∧
    OneBlock hostSample "utsname" ∧
    ∃ pre post : List String,
      emitted hostSample = pre ++
        [S hostSample "termios", F hostSample "termios" "c_iflag",
         F hostSample "termios" "c_oflag", F hostSample "termios" "c_cflag",
         F hostSample "termios" "c_lflag", C hostSample "NCCS",
         AF hostSample "termios" "c_cc"] ++ post ∧
      ∀ l ∈ pre ++ post, ofStruct "termios" (keyOf l) = false :=
  C6_struct_blocks_amended hostSample "utsname" (by decide!) (by decide)

/-! ## Array fields -/

set_option maxRecDepth 100000 in
theorem charArray_mem : ∀ p ∈ charArrayFields, Stmt.F p.1 p.2 ∈ main := by decide!

theorem charArray_stmts (p : String × String) (hp : p ∈ charArrayFields) :
    main.filter (fun s => s.key = p.1 ++ "." ++ p.2) = [Stmt.F p.1 p.2] :=
  @main_filter_key (Stmt.F p.1 p.2) (charArray_mem p hp)

set_option maxRecDepth 100000 in
theorem cc_mem : Stmt.AF "termios" "c_cc" ∈ main := by decide!

set_option maxRecDepth 100000 in
theorem cc_only : main.filter Stmt.isAF = [Stmt.AF "termios" "c_cc"] := by decide!

theorem cc_stmt :
    main.filter (fun s => s.key = "termios" ++ "." ++ "c_cc") = [Stmt.AF "termios" "c_cc"] ∧
    main.filter Stmt.isAF = [Stmt.AF "termios" "c_cc"] :=
  ⟨@main_filter_key (Stmt.AF "termios" "c_cc") cc_mem, cc_only⟩

theorem record_tail (x o : String) :
    x ++ "=" ++ o ++ "," ++ "32" ++ "," ++ "1" ++ "," ++ "32" ++ "\n"
      = x ++ "=" ++ o ++ ",32,1,32\n" := by
  apply String.ext
  simp only [String.data_append, List.append_assoc]
  rfl

/-- What `AF` prints for a field of 32 one-byte elements. -/
theorem AF_char32 (h : Host) (s f : String) (hs : '%' ∉ s.data) (hf : '%' ∉ f.data)
    (hoff : h.offsetof s f < 2147483648)
    (hfsz : h.sizeofField s f = 32) (hesz : h.sizeofElem s f = 1) :
    AF h s f = s ++ "." ++ f ++ "=" ++ toString (h.offsetof s f) ++ ",32,1,32\n" := by
  have hfk : '%' ∉ (s ++ "." ++ f).data := by
    rw [String.data_append, String.data_append]
    intro hm
    rcases List.mem_append.mp hm with hm | hm
    · rcases List.mem_append.mp hm with hm | hm
      · exact hs hm
      · exact absurd hm (by decide)
    · exact hf hm
  unfold AF
  rw [printf_record4 _ _ _ _ _ hfk, hfsz, hesz, castInt_of_isInt (isInt_natCast hoff),
    castInt_of_isInt (isInt_natCast (by decide : 32 < 2147483648)),
    castInt_of_isInt (isInt_natCast (by decide : 1 < 2147483648))]
  exact record_tail _ _

/-- C7, counterexample: `utsname.sysname`, a character array, is emitted by
`F` with two values, not as an array record with four. -/
theorem C7_counterexample :
    (emitted hostSample).filter (fun l => keyOf l = "utsname.sysname")
      = ["utsname.sysname=8,65\n"] ∧
    valueCount "utsname.sysname=8,65\n" = 2 ∧
    AF hostSample "utsname" "sysname" = "utsname.sysname=8,65,1,65\n" ∧
    "utsname.sysname=8,65,1,65\n" ∉ emitted hostSample := by decide!

/-- C7, amended: `termios.c_cc` is the one field emitted as an array record,
with the four values offset, fieldSize, elementSize and the quotient
fieldSize / elementSize; each character-array field is emitted by `F` as a
record of the two values offset and fieldSize.  A field of 32 one-byte
elements passed to `AF` is printed with fieldSize 32, elementSize 1 and
elementCount 32. -/
theorem C7_array_fields_amended (h : Host) (s f : String) (hp : (s, f) ∈ charArrayFields) :
    ((emitted h).filter (fun l => keyOf l = "termios" ++ "." ++ "c_cc") = [AF h "termios" "c_cc"] ∧
      valueCount (AF h "termios" "c_cc") = 4 ∧
      AF h "termios" "c_cc" = "termios.c_cc" ++ "=" ++
        ",".intercalate ([(h.offsetof "termios" "c_cc" : Int),
          (h.sizeofField "termios" "c_cc" : Int), (h.sizeofElem "termios" "c_cc" : Int),
          ((h.sizeofField "termios" "c_cc" / h.sizeofElem "termios" "c_cc" : Nat) : Int)].map
            (fun a => toString (castInt a))) ++ "\n") ∧
    ((emitted h).filter (fun l => keyOf l = s ++ "." ++ f) = [F h s f] ∧
      valueCount (F h s f) = 2) ∧
    (h.offsetof s f < 2147483648 → h.sizeofField s f = 32 → h.sizeofElem s f = 1 →
      AF h s f = s ++ "." ++ f ++ "=" ++ toString (h.offsetof s f) ++ ",32,1,32\n") := by
  have hF := charArray_stmts (s, f) hp
  have hFmem : Stmt.F s f ∈ main := by
    have : Stmt.F s f ∈ main.filter (fun t => t.key = s ++ "." ++ f) := by
      rw [hF]; exact List.mem_singleton.mpr rfl
    exact (List.mem_filter.mp this).1
  have hAmem : Stmt.AF "termios" "c_cc" ∈ main := by
    have : Stmt.AF "termios" "c_cc" ∈ main.filter Stmt.isAF := by
      rw [cc_stmt.2]; exact List.mem_singleton.mpr rfl
    exact (List.mem_filter.mp this).1
  have hFwf := main_wf _ hFmem
  have hAwf := main_wf _ hAmem
  refine ⟨⟨?_, ?_, ?_⟩, ⟨?_, ?_⟩, ?_⟩
  · rw [filter_emitted, cc_stmt.1]
    rfl
  · exact valueCount_exec h hAwf
  · exact exec_eq h hAwf
  · rw [filter_emitted, hF]
    rfl
  · exact valueCount_exec h hFwf
  · intro hoff hfsz hesz
    simp only [Stmt.wf, Bool.and_eq_true] at hFwf
    exact AF_char32 h s f (not_mem_of_isIdent hFwf.1 '%' (by decide))
      (not_mem_of_isIdent hFwf.2 '%' (by decide)) hoff hfsz hesz

set_option maxRecDepth 100000 in
theorem C7_array_fields_amended_witness :
    ((emitted hostSample).filter (fun l => keyOf l = "termios" ++ "." ++ "c_cc")
        = [AF hostSample "termios" "c_cc"] ∧
      valueCount (AF hostSample "termios" "c_cc") = 4 ∧
      AF hostSample "termios" "c_cc" = "termios.c_cc" ++ "=" ++
        ",".intercalate ([(hostSample.offsetof "termios" "c_cc" : Int),
          (hostSample.sizeofField "termios" "c_cc" : Int),
          (hostSample.sizeofElem "termios" "c_cc" : Int),
          ((hostSample.sizeofField "termios" "c_cc" / hostSample.sizeofElem "termios" "c_cc"
            : Nat) : Int)].map (fun a => toString (castInt a))) ++ "\n") ∧
    ((emitted hostSample).filter (fun l => keyOf l = "dirent" ++ "." ++ "d_name")
        = [F hostSample "dirent" "d_name"] ∧
      valueCount (F hostSample "dirent" "d_name") = 2) ∧
    (hostSample.offsetof "dirent" "d_name" < 2147483648 →
      hostSample.sizeofField "dirent" "d_name" = 32 →
      hostSample.sizeofElem "dirent" "d_name" = 1 →
      AF hostSample "dirent" "d_name"
        = "dirent" ++ "." ++ "d_name" ++ "=" ++ toString (hostSample.offsetof "dirent" "d_name")
          ++ ",32,1,32\n") :=
  C7_array_fields_amended hostSample "dirent" "d_name" (by decide!)

/-! ## The run -/

theorem handAll_cons {σ : Type} (io : Stdio σ) (st : σ) (t : String) (ts : List String) :
    handAll io st (t :: ts) = handAll io (io.put st t).1 ts := rfl

/-- A run that exits has status 0 and has handed every record to the stream,
whatever the calls returned. -/
theorem runFrom_exited {σ : Type} (h : Host) (io : Stdio σ) (l : List Stmt) :
    ∀ (st : σ) (c : Int) (st' : σ), runFrom h io l st = .exited c st' →
      c = 0 ∧ st' = (io.close (handAll io st (l.map (Stmt.exec h)))).1 := by
  induction l with
  | nil =>
    intro st c st' hrun
    unfold runFrom at hrun
    cases hc : io.close st with
    | mk s o =>
      rw [hc] at hrun
      cases o with
      | killed => exact Ending.noConfusion hrun
      | ok =>
        injection hrun with h1 h2
        exact ⟨h1.symm, by rw [← h2]; simp [handAll, hc]⟩
      | error =>
        injection hrun with h1 h2
        exact ⟨h1.symm, by rw [← h2]; simp [handAll, hc]⟩
  | cons s l ih =>
    intro st c st' hrun
    unfold runFrom at hrun
    rw [List.map_cons, handAll_cons]
    cases hp : io.put st (s.exec h) with
    | mk s1 o =>
      rw [hp] at hrun
      cases o with
      | killed => exact Ending.noConfusion hrun
      | ok => exact ih s1 c st' hrun
      | error => exact ih s1 c st' hrun

/-- A run that is killed was killed by a call: by the `printf` of some record,
after the records before it were handed over, or by the flush at exit. -/
theorem runFrom_signaled {σ : Type} (h : Host) (io : Stdio σ) (l : List Stmt) :
    ∀ (st st' : σ), runFrom h io l st = .signaled st' →
      ∃ pre : List String,
        (∃ (t : String) (post : List String), l.map (Stmt.exec h) = pre ++ t :: post ∧
          io.put (handAll io st pre) t = (st', .killed)) ∨
        (pre = l.map (Stmt.exec h) ∧ io.close (handAll io st pre) = (st', .killed)) := by
  induction l with
  | nil =>
    intro st st' hrun
    unfold runFrom at hrun
    cases hc : io.close st with
    | mk s o =>
      rw [hc] at hrun
      cases o with
      | killed =>
        injection hrun with h1
        exact ⟨[], Or.inr ⟨rfl, by rw [← h1]; exact hc⟩⟩
      | ok => exact Ending.noConfusion hrun
      | error => exact Ending.noConfusion hrun
  | cons s l ih =>
    intro st st' hrun
    unfold runFrom at hrun
    cases hp : io.put st (s.exec h) with
    | mk s1 o =>
      rw [hp] at hrun
      have hs1 : (io.put st (s.exec h)).1 = s1 := by rw [hp]
      cases o with
      | killed =>
        injection hrun with h1
        exact ⟨[], Or.inl ⟨s.exec h, l.map (Stmt.exec h), rfl, by rw [← h1]; exact hp⟩⟩
      | ok =>
        obtain ⟨pre, hcase⟩ := ih s1 st' hrun
        refine ⟨s.exec h :: pre, ?_⟩
        rw [handAll_cons, hs1]
        rcases hcase with ⟨t, post, he, hk⟩ | ⟨he, hk⟩
        · exact Or.inl ⟨t, post, by rw [List.map_cons, he]; rfl, hk⟩
        · exact Or.inr ⟨by rw [List.map_cons, he], hk⟩
      | error =>
        obtain ⟨pre, hcase⟩ := ih s1 st' hrun
        refine ⟨s.exec h :: pre, ?_⟩
        rw [handAll_cons, hs1]
        rcases hcase with ⟨t, post, he, hk⟩ | ⟨he, hk⟩
        · exact Or.inl ⟨t, post, by rw [List.map_cons, he]; rfl, hk⟩
        · exact Or.inr ⟨by rw [List.map_cons, he], hk⟩

/-- C8, counterexample: standard output is a file behind a 4096-byte buffer
and the first write fails with an error (a full disk).  The 4461 bytes of the
catalog are handed over, the first block of 4096 is lost, the exit flush
writes the last 365 bytes and the exit status is 0. -/
theorem C8_counterexample :
    (run hostZero (blockBuffered 4096 diskFull) Buffered.empty).status = some 0 ∧
    (run hostZero (blockBuffered 4096 diskFull) Buffered.empty).state.blocks.map String.length
      = [365] ∧
    (run hostZero (blockBuffered 4096 diskFull) Buffered.empty).state.writes = 2 ∧
    ((emitted hostZero).map String.length).sum = 4461 := by decide!

/-- C8, amended: `main` checks the result of no append.  A run that exits has
status 0 and has handed all records of the catalog to the stream in order,
whatever the appends returned, so status 0 does not tell that the catalog
reached the stream; a run ends otherwise only when an append, or the flush at
exit, kills the process. -/
theorem C8_exit_status_amended {σ : Type} (h : Host) (io : Stdio σ) (st : σ) :
    (∀ (c : Int) (st' : σ), run h io st = .exited c st' →
      c = 0 ∧ st' = (io.close (handAll io st (emitted h))).1) ∧
    (∀ st' : σ, run h io st = .signaled st' →
      ∃ pre : List String,
        (∃ (t : String) (post : List String), emitted h = pre ++ t :: post ∧
          io.put (handAll io st pre) t = (st', .killed)) ∨
        (pre = emitted h ∧ io.close (handAll io st pre) = (st', .killed))) :=
  ⟨runFrom_exited h io main st, runFrom_signaled h io main st⟩

theorem C8_exit_status_amended_witness :
    (run hostZero (blockBuffered 4096 diskFull) Buffered.empty).status = some 0 ∧
    (run hostZero (blockBuffered 4096 diskFull) Buffered.empty).state
      = ((blockBuffered 4096 diskFull).close
          (handAll (blockBuffered 4096 diskFull) Buffered.empty (emitted hostZero))).1 := by
  have hs : (run hostZero (blockBuffered 4096 diskFull) Buffered.empty).status = some 0 := by
    decide!
  cases hr : run hostZero (blockBuffered 4096 diskFull) Buffered.empty with
  | exited c st' =>
    obtain ⟨hc, hst⟩ :=
      (C8_exit_status_amended hostZero (blockBuffered 4096 diskFull) Buffered.empty).1 c st' hr
    subst hc
    exact ⟨rfl, hst⟩
  | signaled st' =>
    rw [hr] at hs
    exact Option.noConfusion hs

/-! ## Array geometry -/

end Constants
